import Mathlib

/-!
Shallow embedding of the trace-context correlation and propagation core of the
book-catalog service: the Kafka header carrier adapters (`VecInjector`,
`HeaderExtractor` in `book_ingestion.rs`), the W3C traceparent propagator it is
used with, the Sentry correlation layer (`sentry_correlation.rs`), the exporter
shutdown sequence (`main.rs`), the consumer span lifecycle (`run_consumer`),
and the CRUD delete/update paths (`db.rs`, `rest.rs`).
-/

set_option linter.unusedVariables false

namespace BookTelemetry

/-! Lowercase hexadecimal rendering and parsing, as used by `format!("{:032x}", ...)`
and by traceparent parsing. -/

def hexDigitChar (d : Nat) : Char :=
  if d < 10 then Char.ofNat (48 + d) else Char.ofNat (87 + d)

def hexDigitVal (c : Char) : Nat :=
  if c.toNat ≤ 57 then c.toNat - 48 else c.toNat - 87

def isLowerHexDigit (c : Char) : Bool :=
  (48 ≤ c.toNat && c.toNat ≤ 57) || (97 ≤ c.toNat && c.toNat ≤ 102)

/-- Rendering of `format!("{:0Nx}", n)`: exactly `w` lowercase hex digits, most
significant first (the value is taken modulo `16 ^ w`, which never triggers at the
use sites since the ids are 128/64-bit). -/
def natToHexChars : Nat → Nat → List Char
  | 0, _ => []
  | w + 1, n => natToHexChars w (n / 16) ++ [hexDigitChar (n % 16)]

def hexVal (l : List Char) : Nat :=
  l.foldl (fun acc c => 16 * acc + hexDigitVal c) 0

/-! UTF-8 encoding and validating decoding, modelling Rust byte strings:
a Rust `&str` is exactly a validated UTF-8 byte sequence, and
`std::str::from_utf8` succeeds exactly on valid sequences. -/

/-- UTF-8 encoding of one Unicode scalar value, as byte values. -/
def utf8EncodeChar (c : Char) : List Nat :=
  let n := c.toNat
  if n < 128 then [n]
  else if n < 2048 then [192 + n / 64, 128 + n % 64]
  else if n < 65536 then [224 + n / 4096, 128 + n / 64 % 64, 128 + n % 64]
  else [240 + n / 262144, 128 + n / 4096 % 64, 128 + n / 64 % 64, 128 + n % 64]

def utf8EncodeList (cs : List Char) : List Nat :=
  (cs.map utf8EncodeChar).flatten

def utf8Encode (s : String) : List Nat :=
  utf8EncodeList s.toList

/-- Fuelled UTF-8 decoder; each step consumes at least one byte and one unit of
fuel, so fuel `≥` length always suffices.  Rejects continuation-byte leads,
overlong encodings, surrogates and values above U+10FFFF, as Rust's
`std::str::from_utf8` does. -/
def utf8DecodeFuel : Nat → List Nat → Option (List Char)
  | _, [] => some []
  | 0, _ :: _ => none
  | fuel + 1, b :: rest =>
    if b < 128 then
      (utf8DecodeFuel fuel rest).map (fun cs => Char.ofNat b :: cs)
    else if b < 194 then none
    else if b < 224 then
      match rest with
      | b1 :: rest2 =>
        if 128 ≤ b1 && b1 < 192 then
          (utf8DecodeFuel fuel rest2).map
            (fun cs => Char.ofNat ((b - 192) * 64 + (b1 - 128)) :: cs)
        else none
      | [] => none
    else if b < 240 then
      match rest with
      | b1 :: b2 :: rest3 =>
        if (128 ≤ b1 && b1 < 192) && (128 ≤ b2 && b2 < 192)
            && !(b == 224 && b1 < 160) && !(b == 237 && 160 ≤ b1) then
          (utf8DecodeFuel fuel rest3).map
            (fun cs => Char.ofNat ((b - 224) * 4096 + (b1 - 128) * 64 + (b2 - 128)) :: cs)
        else none
      | _ => none
    else if b < 245 then
      match rest with
      | b1 :: b2 :: b3 :: rest4 =>
        if (128 ≤ b1 && b1 < 192) && (128 ≤ b2 && b2 < 192) && (128 ≤ b3 && b3 < 192)
            && !(b == 240 && b1 < 144) && !(b == 244 && 144 ≤ b1) then
          (utf8DecodeFuel fuel rest4).map
            (fun cs =>
              Char.ofNat ((b - 240) * 262144 + (b1 - 128) * 4096 + (b2 - 128) * 64 + (b3 - 128)) :: cs)
        else none
      | _ => none
    else none

def utf8Decode (bs : List Nat) : Option String :=
  (utf8DecodeFuel bs.length bs).map String.mk

/-! The trace-context data model. -/

/-- Trace context identity: 128-bit `trace_id`, 64-bit `span_id`, 8-bit trace
flags.  A context is valid when both ids are nonzero (OpenTelemetry
`SpanContext::is_valid`, used by the correlation layer). -/
structure SpanContext where
  traceId : Nat
  spanId : Nat
  traceFlags : Nat
deriving DecidableEq, Repr

def SpanContext.isValid (c : SpanContext) : Bool :=
  (c.traceId != 0) && (c.spanId != 0)

/-- The canonical invalid context (all zero). -/
def invalidSpanContext : SpanContext := ⟨0, 0, 0⟩

/-- Modelled from the spec: the W3C traceparent value
`{version:2hex}-{trace_id:32hex}-{span_id:16hex}-{flags:2hex}` with version 00,
as written by the text-map propagator's inject; the propagator itself is
library code not present under `src/` (spec section 4.2 and section 6). -/
def traceparentChars (c : SpanContext) : List Char :=
  natToHexChars 2 0 ++ '-' :: natToHexChars 32 c.traceId
    ++ '-' :: natToHexChars 16 c.spanId ++ '-' :: natToHexChars 2 c.traceFlags

def traceparentValue (c : SpanContext) : String :=
  String.mk (traceparentChars c)

/-- Reads exactly `n` lowercase hex digits, returning them and the rest. -/
def readHexN : Nat → List Char → Option (List Char × List Char)
  | 0, l => some ([], l)
  | _ + 1, [] => none
  | n + 1, c :: l =>
    if isLowerHexDigit c then (readHexN n l).map (fun p => (c :: p.1, p.2)) else none

/-- Consumes one '-' separator. -/
def expectDash (l : List Char) : Option (List Char) :=
  match l with
  | c :: r => if c = '-' then some r else none
  | [] => none

/-- Modelled from the spec: parsing of a traceparent header value; wrong segment
count, non-hex characters or wrong segment lengths yield no parse (spec
section 4.2); the parsing propagator is library code not present under `src/`. -/
def parseTraceparent (l : List Char) : Option (Nat × Nat × Nat) :=
  (readHexN 2 l).bind fun v =>
  (expectDash v.2).bind fun r1 =>
  (readHexN 32 r1).bind fun t =>
  (expectDash t.2).bind fun r2 =>
  (readHexN 16 r2).bind fun p =>
  (expectDash p.2).bind fun r3 =>
  (readHexN 2 r3).bind fun f =>
  if f.2.isEmpty then some (hexVal t.1, hexVal p.1, hexVal f.1) else none

/-- Modelled from the spec: `extract` returns either a valid parsed context or
the canonical invalid context (spec section 4.2). -/
def contextFromTraceparent (s : String) : SpanContext :=
  match parseTraceparent s.toList with
  | some (t, p, f) => if (t != 0) && (p != 0) then ⟨t, p, f⟩ else invalidSpanContext
  | none => invalidSpanContext

/-! Kafka message header carrier adapters (`book_ingestion.rs`). -/

/-- One Kafka message header, as in rdkafka's `Header`: a key and an optional
byte value. -/
structure KafkaHeader where
  key : String
  value : Option (List Nat)
deriving DecidableEq, Repr

/-- Rust `u8::to_ascii_lowercase` lifted to characters (only ASCII A-Z fold). -/
def asciiLower (c : Char) : Char :=
  if 65 ≤ c.toNat && c.toNat ≤ 90 then Char.ofNat (c.toNat + 32) else c

/-- Rust `str::eq_ignore_ascii_case`. -/
def eqIgnoreAsciiCase (a b : String) : Bool :=
  a.toList.map asciiLower == b.toList.map asciiLower

/-- `VecInjector` (`book_ingestion.rs` lines 23-50): buffers (key, value) pairs;
`Injector::set` pushes one pair. -/
structure VecInjector where
  headers : List (String × String)
deriving DecidableEq, Repr

def VecInjector.new : VecInjector := ⟨[]⟩

def VecInjector.set (inj : VecInjector) (key : String) (value : String) : VecInjector :=
  ⟨inj.headers ++ [(key, value)]⟩

/-- `VecInjector::into_owned_headers`: converts the buffered pairs to Kafka
headers in order, each value present and UTF-8 encoded. -/
def VecInjector.intoOwnedHeaders (inj : VecInjector) : List KafkaHeader :=
  inj.headers.map (fun kv => ⟨kv.1, some (utf8Encode kv.2)⟩)

/-- Modelled from the spec: `inject(context, injector)` writes the traceparent
header for a valid context and writes nothing for an invalid/empty one (spec
section 4.2); the injecting propagator is library code not present under
`src/`.  Specialised to the `VecInjector` carrier of
`send_book_ingestion_message`. -/
def injectContextVec (c : SpanContext) (inj : VecInjector) : VecInjector :=
  if c.isValid then inj.set "traceparent" (traceparentValue c) else inj

/-- `HeaderExtractor` (`book_ingestion.rs` lines 52-73): an optional borrowed
header collection (`m.headers()` yields `None` when the message has no
headers). -/
structure HeaderExtractor where
  headers : Option (List KafkaHeader)
deriving DecidableEq, Repr

/-- Body of `HeaderExtractor::get` over a concrete header list, via
`find_map`: on a case-insensitive key match the code runs
`std::str::from_utf8(header.value.unwrap()).ok()` — a matching header with an
absent value panics (modelled as `Except.error ()`), a matching value that is
not valid UTF-8 makes the closure return `None` so `find_map` moves on to
later headers. -/
def headersGet : List KafkaHeader → String → Except Unit (Option String)
  | [], _ => Except.ok none
  | h :: hs, key =>
    if eqIgnoreAsciiCase h.key key then
      match h.value with
      | none => Except.error ()
      | some bytes =>
        match utf8Decode bytes with
        | some s => Except.ok (some s)
        | none => headersGet hs key
    else headersGet hs key

def HeaderExtractor.get (e : HeaderExtractor) (key : String) : Except Unit (Option String) :=
  match e.headers with
  | none => Except.ok none
  | some hs => headersGet hs key

/-- `HeaderExtractor::keys`: all keys, or empty when there is no header
collection. -/
def HeaderExtractor.keys (e : HeaderExtractor) : List String :=
  match e.headers with
  | none => []
  | some hs => hs.map KafkaHeader.key

/-- The consumer-side `propagator.extract(&extractor)` over the Kafka
extractor: reads the traceparent header (a panic inside the extractor
propagates); an absent header or collection gives the invalid context. -/
def extractContext (e : HeaderExtractor) : Except Unit SpanContext :=
  (e.get "traceparent").map (fun ov =>
    match ov with
    | some s => contextFromTraceparent s
    | none => invalidSpanContext)

/-! The Sentry-OpenTelemetry correlation layer (`sentry_correlation.rs`). -/

/-- The five `tracing::Level`s. -/
inductive TracingLevel
  | error
  | warn
  | info
  | debug
  | trace
deriving DecidableEq, Repr

/-- tracing-core orders `Level` by verbosity, documented with
`assert!(Level::TRACE > Level::DEBUG)` and `assert!(Level::ERROR < Level::WARN)`:
ERROR is the least element and TRACE the greatest.  `a <= b` on `Level` is
`a.verbosity <= b.verbosity`. -/
def TracingLevel.verbosity : TracingLevel → Nat
  | .error => 0
  | .warn => 1
  | .info => 2
  | .debug => 3
  | .trace => 4

/-- Severity with ERROR most severe, used only to state the claims'
"at or above the WARNING severity". -/
def TracingLevel.severity : TracingLevel → Nat
  | .error => 4
  | .warn => 3
  | .info => 2
  | .debug => 1
  | .trace => 0

/-- A Sentry scope: its string tags. -/
structure SentryScope where
  tags : List (String × String)
deriving DecidableEq, Repr

/-- `scope.set_tag`: inserts or overwrites the tag with the given key. -/
def SentryScope.setTag (s : SentryScope) (k v : String) : SentryScope :=
  ⟨(k, v) :: s.tags.filter (fun kv => kv.1 != k)⟩

def SentryScope.getTag (s : SentryScope) (k : String) : Option String :=
  List.lookup k s.tags

/-- The `tracing_opentelemetry::OtelData` found in the event's span extensions:
`correlate_with_sentry` reads `otel_data.parent_cx.span().span_context()`. -/
structure OtelData where
  parentCx : SpanContext
deriving DecidableEq, Repr

/-- `SentryOtelCorrelationLayer::correlate_with_sentry`
(`sentry_correlation.rs` lines 132-159): when the event has a span with otel
data whose context is valid, set the `otel.trace_id`/`otel.span_id` tags
(`{:032x}`/`{:016x}` renderings); otherwise leave the scope unchanged. -/
def correlateWithSentry (eventSpan : Option OtelData) (scope : SentryScope) : SentryScope :=
  match eventSpan with
  | none => scope
  | some d =>
    if d.parentCx.isValid then
      (scope.setTag "otel.trace_id" (String.mk (natToHexChars 32 d.parentCx.traceId))).setTag
        "otel.span_id" (String.mk (natToHexChars 16 d.parentCx.spanId))
    else scope

/-- `SentryOtelCorrelationLayer::on_event` (`sentry_correlation.rs` lines
183-188): guard `event.metadata().level() >= &self.min_level`, which under
tracing's verbosity ordering is `min_level.verbosity <= event.verbosity`. -/
def onEvent (minLevel eventLevel : TracingLevel) (eventSpan : Option OtelData)
    (scope : SentryScope) : SentryScope :=
  if minLevel.verbosity ≤ eventLevel.verbosity then correlateWithSentry eventSpan scope
  else scope

/-- `SentryOtelCorrelationLayer::new` sets `min_level` to WARN. -/
def correlationLayerDefaultMinLevel : TracingLevel := .warn

/-! Exporter shutdown sequence (`main.rs` lines 138-151). -/

inductive ShutdownEvent
  | attempted (provider : String)
  | loggedError (provider : String) (msg : String)
deriving DecidableEq, Repr

/-- The shutdown block at the end of `main`: three independent
`if let Err(e) = provider.shutdown() { tracing::error!(...) }` statements,
straight-line, no early return; each failure is logged and the next shutdown
still runs.  Inputs are each provider's shutdown result. -/
def shutdownSequence (traceRes meterRes logRes : Except String Unit) : List ShutdownEvent :=
  let step := fun (name : String) (r : Except String Unit) =>
    ShutdownEvent.attempted name ::
      (match r with
       | Except.ok _ => []
       | Except.error e => [ShutdownEvent.loggedError name e])
  step "trace_provider" traceRes ++ step "meter_provider" meterRes ++ step "log_provider" logRes

def attemptsOf (evs : List ShutdownEvent) (name : String) : Nat :=
  (evs.filter (fun e => e = ShutdownEvent.attempted name)).length

def loggedFor (evs : List ShutdownEvent) (name : String) : Bool :=
  evs.any (fun e =>
    match e with
    | ShutdownEvent.loggedError n _ => n == name
    | _ => false)

def exceptFails (r : Except String Unit) : Bool :=
  match r with
  | Except.error _ => true
  | Except.ok _ => false

/-! The consumer span lifecycle (`run_consumer`, `book_ingestion.rs` lines
157-228), as the sequence of observable span/log actions of one loop
iteration. -/

structure BookIngestionMessage where
  bookId : Int
deriving DecidableEq, Repr

inductive SpanStatus
  | unset
  | errorStatus
deriving DecidableEq, Repr

inductive ConsumerEvent
  | errorLoggedOutsideSpan (msg : String)
  | spanCreated (name : String) (kind : String) (parent : Option SpanContext)
  | linkAdded (ctx : SpanContext)
  | infoLogged (bookId : Int)
  | errorLoggedInSpan (msg : String)
  | spanClosedAtScopeExit
  | spanEndedExplicitly (status : SpanStatus)
  | offsetCommitted
deriving DecidableEq, Repr

/-- `run_consumer` after the payload was obtained as a string: a root tracing
span is created (`set_parent` is never called, so it has no parent), the
context extracted from the headers is attached as a link, the payload is
deserialized inside the span's scope — on failure an ERROR event is logged —
then the scope exits (closing the span) and the offset is committed.
`deserialize` stands for `serde_json::from_str::<BookIngestionMessage>`,
library code modelled as a parameter.  A panic from the header extractor
propagates. -/
def processPayload (deserialize : String → Option BookIngestionMessage)
    (headers : Option (List KafkaHeader)) (payload : String) :
    Except Unit (List ConsumerEvent) :=
  (extractContext ⟨headers⟩).map (fun linkedCtx =>
    ConsumerEvent.spanCreated "book_ingestion" "Consumer" none ::
    ConsumerEvent.linkAdded linkedCtx ::
    ((match deserialize payload with
      | some msg => [ConsumerEvent.infoLogged msg.bookId]
      | none => [ConsumerEvent.errorLoggedInSpan "Failed to deserialize message payload"]) ++
     [ConsumerEvent.spanClosedAtScopeExit, ConsumerEvent.offsetCommitted]))

/-- One whole `Ok(m)` iteration of `run_consumer`: `payload_view::<str>()`
gives `None` (no payload, treated as the empty string), a valid UTF-8 string,
or a UTF-8 error, in which case an error is logged outside any span and the
iteration `continue`s without creating a span. -/
def processMessage (deserialize : String → Option BookIngestionMessage)
    (headers : Option (List KafkaHeader)) (payloadBytes : Option (List Nat)) :
    Except Unit (List ConsumerEvent) :=
  match payloadBytes with
  | none => processPayload deserialize headers ""
  | some bytes =>
    match utf8Decode bytes with
    | none => Except.ok [ConsumerEvent.errorLoggedOutsideSpan "Error while deserializing payload"]
    | some s => processPayload deserialize headers s

/-! Outbound HTTP request carrier (`client/src/otel.rs`). -/

/-- A mutable outbound HTTP request, reduced to its headers. -/
structure HttpRequest where
  headers : List (String × String)
deriving DecidableEq, Repr

/-- RFC 7230 token characters as accepted by `HeaderName::from_str`
(lowercased letters, digits and the usual token symbols). -/
def isHeaderNameChar (c : Char) : Bool :=
  (97 ≤ c.toNat && c.toNat ≤ 122) || (48 ≤ c.toNat && c.toNat ≤ 57)
    || c == '-' || c == '_' || c == '.' || c == '!' || c == '#' || c == '$'
    || c == '%' || c == '&' || c == '*' || c == '+' || c == '^' || c == '|' || c == '~'

def isLegalHeaderName (s : String) : Bool :=
  !s.toList.isEmpty && s.toList.all isHeaderNameChar

/-- `HeaderValue::from_str` accepts visible ASCII plus space and tab. -/
def isLegalHeaderValue (s : String) : Bool :=
  s.toList.all (fun c => c.toNat = 9 || (32 ≤ c.toNat && c.toNat < 127))

/-- `RequestCarrier::set_inner`: panics (`expect`) on an illegal header name or
value, otherwise inserts/overwrites the header. -/
def RequestCarrier.set (req : HttpRequest) (key value : String) : Except Unit HttpRequest :=
  if isLegalHeaderName key && isLegalHeaderValue value then
    Except.ok ⟨(key, value) :: req.headers.filter (fun kv => kv.1 != key)⟩
  else Except.error ()

/-- `inject_opentelemetry_context_into_request` with the current context
`c`: the propagator writes the traceparent header only for a valid context
(modelled from the spec, section 4.2, as for `injectContextVec`); with an
invalid/empty context `set` is never called, so nothing can panic and the
request is unchanged. -/
def injectContextRequest (c : SpanContext) (req : HttpRequest) : Except Unit HttpRequest :=
  if c.isValid then RequestCarrier.set req "traceparent" (traceparentValue c)
  else Except.ok req

/-! The CRUD delete/update paths (`db.rs` lines 99-127, `rest.rs` lines
103-132).  The books table is modelled as its list of rows. -/

inductive BookStatus
  | available
  | borrowed
  | lost
deriving DecidableEq, Repr

structure Book where
  id : Int
  title : String
  author : String
  status : BookStatus
deriving DecidableEq, Repr

structure BookCreateIn where
  title : String
  author : String
  status : Option BookStatus
deriving DecidableEq, Repr

/-- `db::delete_book`: `DELETE FROM books WHERE id=$1`; the affected-row count
is discarded and `Ok(())` returned whether or not a row matched. -/
def deleteBookDb (books : List Book) (id : Int) : List Book × Except Unit Unit :=
  (books.filter (fun b => b.id != id), Except.ok ())

/-- `db::update_book`: `UPDATE books SET author, title, status WHERE id=$1`,
returning `rows_affected` (0 when no row matched). -/
def updateBookDb (books : List Book) (book : Book) : List Book × Except Unit Nat :=
  (books.map (fun b =>
    if b.id = book.id then
      { b with title := book.title, author := book.author, status := book.status }
    else b),
   Except.ok (books.filter (fun b => b.id == book.id)).length)

/-- The HTTP DELETE handler (`rest.rs` lines 103-113): maps a db `Ok` to a 200
success and a db error to 404. -/
def deleteBookHandler (books : List Book) (id : Int) : List Book × Except Nat Unit :=
  let r := deleteBookDb books id
  match r.2 with
  | Except.ok _ => (r.1, Except.ok ())
  | Except.error _ => (r.1, Except.error 404)

/-- The HTTP PATCH handler (`rest.rs` lines 115-132): builds a `Book` with the
path id and status `Available`, calls `db::update_book`, and maps `Ok(n)` to a
200 success carrying `n` and a db error to 404. -/
def updateBookHandler (books : List Book) (id : Int) (bin : BookCreateIn) :
    List Book × Except Nat Nat :=
  let book : Book := ⟨id, bin.title, bin.author, BookStatus.available⟩
  let r := updateBookDb books book
  match r.2 with
  | Except.ok n => (r.1, Except.ok n)
  | Except.error _ => (r.1, Except.error 404)

/-! Claim-side specification predicates, stated independently of the parser. -/

/-- Splits a character list on '-' separators. -/
def splitDash : List Char → List (List Char)
  | [] => [[]]
  | c :: r =>
    match splitDash r with
    | [] => [[]]
    | seg :: segs => if c = '-' then [] :: seg :: segs else (c :: seg) :: segs

/-- The `{2hex}-{32hex}-{16hex}-{2hex}` traceparent pattern of the claim:
splitting on '-' yields exactly four segments, of lengths 2, 32, 16 and 2, all
lowercase hex digits. -/
def matchesTraceparentPattern (s : String) : Bool :=
  match splitDash s.toList with
  | [v, t, p, f] =>
    v.length == 2 && t.length == 32 && p.length == 16 && f.length == 2
      && (v ++ t ++ p ++ f).all isLowerHexDigit
  | _ => false

/-! Auxiliary lemmas about hex rendering and parsing. -/

theorem natToHexChars_length (w n : Nat) : (natToHexChars w n).length = w := by
  induction w generalizing n with
  | zero => rfl
  | succ w ih => simp [natToHexChars, ih]

theorem hexDigitChar_lowerHex : ∀ d : Nat, d < 16 → isLowerHexDigit (hexDigitChar d) = true := by
  decide

theorem hexDigitVal_hexDigitChar : ∀ d : Nat, d < 16 → hexDigitVal (hexDigitChar d) = d := by
  decide

theorem isLowerHexDigit_toNat_lt {c : Char} (h : isLowerHexDigit c = true) : c.toNat < 128 := by
  simp only [isLowerHexDigit, Bool.or_eq_true, Bool.and_eq_true, decide_eq_true_eq] at h
  omega

theorem isLowerHexDigit_ne_dash {c : Char} (h : isLowerHexDigit c = true) : c ≠ '-' := by
  intro e
  rw [e] at h
  exact absurd h (by decide)

theorem natToHexChars_all_hex (w n : Nat) :
    ∀ c ∈ natToHexChars w n, isLowerHexDigit c = true := by
  induction w generalizing n with
  | zero => intro c hc; simp [natToHexChars] at hc
  | succ w ih =>
    intro c hc
    simp only [natToHexChars, List.mem_append, List.mem_singleton] at hc
    rcases hc with h | h
    · exact ih _ c h
    · rw [h]; exact hexDigitChar_lowerHex _ (Nat.mod_lt _ (by norm_num))

theorem hexVal_append_digit (l : List Char) (c : Char) :
    hexVal (l ++ [c]) = 16 * hexVal l + hexDigitVal c := by
  simp [hexVal, List.foldl_append]

theorem hexVal_natToHexChars (w n : Nat) (h : n < 16 ^ w) :
    hexVal (natToHexChars w n) = n := by
  induction w generalizing n with
  | zero =>
    simp only [pow_zero, Nat.lt_one_iff] at h
    simp [natToHexChars, hexVal, h]
  | succ w ih =>
    have hdiv : n / 16 < 16 ^ w := by
      apply Nat.div_lt_of_lt_mul
      rw [pow_succ] at h
      omega
    rw [natToHexChars, hexVal_append_digit, ih _ hdiv,
      hexDigitVal_hexDigitChar _ (Nat.mod_lt _ (by norm_num))]
    omega

/-! Auxiliary lemmas about UTF-8 on ASCII data. -/

theorem utf8EncodeChar_ascii {c : Char} (h : c.toNat < 128) : utf8EncodeChar c = [c.toNat] := by
  simp [utf8EncodeChar, h]

theorem utf8EncodeList_ascii {cs : List Char} (h : ∀ c ∈ cs, c.toNat < 128) :
    utf8EncodeList cs = cs.map Char.toNat := by
  induction cs with
  | nil => rfl
  | cons c cs ih =>
    simp only [utf8EncodeList, List.map_cons, List.flatten_cons] at ih ⊢
    rw [utf8EncodeChar_ascii (h c (by simp)), ih (fun x hx => h x (by simp [hx]))]
    rfl

theorem utf8DecodeFuel_ascii (fuel : Nat) (cs : List Char) (hf : cs.length ≤ fuel)
    (h : ∀ c ∈ cs, c.toNat < 128) :
    utf8DecodeFuel fuel (cs.map Char.toNat) = some cs := by
  induction fuel generalizing cs with
  | zero =>
    have : cs = [] := by
      cases cs with
      | nil => rfl
      | cons c cs => simp at hf
    rw [this]
    rfl
  | succ fuel ih =>
    cases cs with
    | nil => rfl
    | cons c cs =>
      have hc : c.toNat < 128 := h c (by simp)
      simp only [List.map_cons, utf8DecodeFuel, hc, if_pos]
      rw [ih cs (by simpa using Nat.le_of_succ_le_succ hf) (fun x hx => h x (by simp [hx]))]
      simp [Char.ofNat_toNat]

theorem utf8Decode_encode_ascii {cs : List Char} (h : ∀ c ∈ cs, c.toNat < 128) :
    utf8Decode (utf8EncodeList cs) = some (String.mk cs) := by
  rw [utf8EncodeList_ascii h, utf8Decode,
    utf8DecodeFuel_ascii _ cs (by simp) h]
  rfl

/-! Auxiliary lemmas about `readHexN`. -/

theorem readHexN_exact (l rest : List Char) (h : ∀ c ∈ l, isLowerHexDigit c = true) :
    readHexN l.length (l ++ rest) = some (l, rest) := by
  induction l with
  | nil => rfl
  | cons c l ih =>
    simp only [List.length_cons, List.cons_append, readHexN]
    rw [if_pos (h c (by simp)), show l.append rest = l ++ rest from rfl,
      ih (fun x hx => h x (by simp [hx]))]
    rfl

theorem readHexN_sound :
    ∀ (n : Nat) (l a r : List Char), readHexN n l = some (a, r) →
      l = a ++ r ∧ a.length = n ∧ ∀ c ∈ a, isLowerHexDigit c = true := by
  intro n
  induction n with
  | zero =>
    intro l a r h
    simp only [readHexN, Option.some.injEq, Prod.mk.injEq] at h
    obtain ⟨h1, h2⟩ := h
    subst h1; subst h2
    simp
  | succ n ih =>
    intro l a r h
    cases l with
    | nil => exact Option.noConfusion h
    | cons c l' =>
      simp only [readHexN] at h
      by_cases hc : isLowerHexDigit c = true
      · rw [if_pos hc] at h
        cases hm : readHexN n l' with
        | none => rw [hm] at h; simp at h
        | some p =>
          rw [hm] at h
          simp only [Option.map_some', Option.some.injEq, Prod.mk.injEq] at h
          obtain ⟨ha, hr⟩ := h
          obtain ⟨hl, hlen, hhex⟩ := ih l' p.1 p.2 (by rw [hm])
          subst hr
          rw [← ha]
          refine ⟨by rw [hl]; rfl, by simp [hlen], ?_⟩
          intro x hx
          rcases List.mem_cons.mp hx with h | h
          · rw [h]; exact hc
          · exact hhex x h
      · rw [if_neg hc] at h
        simp at h

theorem expectDash_sound {l r : List Char} (h : expectDash l = some r) : l = '-' :: r := by
  cases l with
  | nil => exact Option.noConfusion h
  | cons c t =>
    simp only [expectDash] at h
    by_cases hc : c = '-'
    · rw [if_pos hc] at h
      injection h with h2
      rw [hc, h2]
    · rw [if_neg hc] at h
      exact Option.noConfusion h

/-! Parsing the rendered traceparent value recovers the context. -/

theorem parseTraceparent_segments (a b c d : List Char)
    (ha : ∀ x ∈ a, isLowerHexDigit x = true) (hb : ∀ x ∈ b, isLowerHexDigit x = true)
    (hc : ∀ x ∈ c, isLowerHexDigit x = true) (hd : ∀ x ∈ d, isLowerHexDigit x = true)
    (la : a.length = 2) (lb : b.length = 32) (lc : c.length = 16) (ld : d.length = 2) :
    parseTraceparent (a ++ ('-' :: (b ++ ('-' :: (c ++ ('-' :: d))))))
      = some (hexVal b, hexVal c, hexVal d) := by
  have e1 := readHexN_exact a ('-' :: (b ++ ('-' :: (c ++ ('-' :: d))))) ha
  rw [la] at e1
  have e2 := readHexN_exact b ('-' :: (c ++ ('-' :: d))) hb
  rw [lb] at e2
  have e3 := readHexN_exact c ('-' :: d) hc
  rw [lc] at e3
  have e4 := readHexN_exact d [] hd
  rw [ld, List.append_nil] at e4
  simp [parseTraceparent, e1, e2, e3, e4, expectDash]

theorem traceparentChars_eq (c : SpanContext) :
    traceparentChars c
      = natToHexChars 2 0 ++ ('-' :: (natToHexChars 32 c.traceId
          ++ ('-' :: (natToHexChars 16 c.spanId ++ ('-' :: natToHexChars 2 c.traceFlags))))) := by
  simp [traceparentChars]

theorem parseTraceparent_render (t s f : Nat) (ht : t < 16 ^ 32) (hs : s < 16 ^ 16)
    (hf : f < 16 ^ 2) :
    parseTraceparent (traceparentChars ⟨t, s, f⟩) = some (t, s, f) := by
  rw [traceparentChars_eq,
    parseTraceparent_segments _ _ _ _ (natToHexChars_all_hex 2 0) (natToHexChars_all_hex 32 t)
      (natToHexChars_all_hex 16 s) (natToHexChars_all_hex 2 f)
      (natToHexChars_length 2 0) (natToHexChars_length 32 t)
      (natToHexChars_length 16 s) (natToHexChars_length 2 f),
    hexVal_natToHexChars 32 t ht, hexVal_natToHexChars 16 s hs, hexVal_natToHexChars 2 f hf]

theorem traceparentChars_ascii (c : SpanContext) :
    ∀ ch ∈ traceparentChars c, ch.toNat < 128 := by
  intro ch hch
  rw [traceparentChars_eq] at hch
  simp only [List.mem_append, List.mem_cons] at hch
  rcases hch with h | h | h | h | h | h | h <;>
    first
      | exact isLowerHexDigit_toNat_lt (natToHexChars_all_hex _ _ _ h)
      | (rw [h]; decide)

/-! `splitDash` lemmas, connecting the parser to the claim-side pattern. -/

theorem splitDash_ne_nil (l : List Char) : splitDash l ≠ [] := by
  cases l with
  | nil => simp [splitDash]
  | cons c r =>
    simp only [splitDash]
    cases splitDash r with
    | nil => simp
    | cons seg segs => by_cases hc : c = '-' <;> simp [hc]

theorem splitDash_no_dash (a : List Char) (h : ∀ c ∈ a, c ≠ '-') : splitDash a = [a] := by
  induction a with
  | nil => rfl
  | cons c a ih =>
    simp only [splitDash, ih (fun x hx => h x (by simp [hx]))]
    rw [if_neg (h c (by simp))]

theorem splitDash_append (a r : List Char) (h : ∀ c ∈ a, c ≠ '-') :
    splitDash (a ++ '-' :: r) = a :: splitDash r := by
  induction a with
  | nil =>
    obtain ⟨seg, segs, e⟩ := List.exists_cons_of_ne_nil (splitDash_ne_nil r)
    simp only [List.nil_append, splitDash, e]
    simp [← e]
  | cons c a ih =>
    simp only [List.cons_append, splitDash, List.append_eq,
      ih (fun x hx => h x (by simp [hx]))]
    rw [if_neg (h c (by simp))]

theorem matchesTraceparentPattern_of_parse {s : String} {x : Nat × Nat × Nat}
    (h : parseTraceparent s.toList = some x) : matchesTraceparentPattern s = true := by
  simp only [parseTraceparent, Option.bind_eq_some] at h
  obtain ⟨v, hv, h⟩ := h
  obtain ⟨r1, hr1, h⟩ := h
  obtain ⟨t, htp, h⟩ := h
  obtain ⟨r2, hr2, h⟩ := h
  obtain ⟨p, hp, h⟩ := h
  obtain ⟨r3, hr3, h⟩ := h
  obtain ⟨f, hf, h⟩ := h
  have hemp : f.2 = [] := by
    by_cases he : f.2.isEmpty = true
    · simpa using he
    · rw [if_neg he] at h
      exact Option.noConfusion h
  obtain ⟨hl0, hlenv, hhexv⟩ := readHexN_sound 2 s.toList v.1 v.2 hv
  have hd1 : v.2 = '-' :: r1 := expectDash_sound hr1
  obtain ⟨hl1, hlent, hhext⟩ := readHexN_sound 32 r1 t.1 t.2 htp
  have hd2 : t.2 = '-' :: r2 := expectDash_sound hr2
  obtain ⟨hl2, hlenp, hhexp⟩ := readHexN_sound 16 r2 p.1 p.2 hp
  have hd3 : p.2 = '-' :: r3 := expectDash_sound hr3
  obtain ⟨hl3, hlenf, hhexf⟩ := readHexN_sound 2 r3 f.1 f.2 hf
  have hdecomp : s.toList
      = v.1 ++ ('-' :: (t.1 ++ ('-' :: (p.1 ++ ('-' :: f.1))))) := by
    rw [hl0, hd1, hl1, hd2, hl2, hd3, hl3, hemp, List.append_nil]
  have hnv : ∀ c ∈ v.1, c ≠ '-' := fun c hc => isLowerHexDigit_ne_dash (hhexv c hc)
  have hnt : ∀ c ∈ t.1, c ≠ '-' := fun c hc => isLowerHexDigit_ne_dash (hhext c hc)
  have hnp : ∀ c ∈ p.1, c ≠ '-' := fun c hc => isLowerHexDigit_ne_dash (hhexp c hc)
  have hnf : ∀ c ∈ f.1, c ≠ '-' := fun c hc => isLowerHexDigit_ne_dash (hhexf c hc)
  have hsplit : splitDash s.toList = [v.1, t.1, p.1, f.1] := by
    rw [hdecomp, splitDash_append _ _ hnv, splitDash_append _ _ hnt,
      splitDash_append _ _ hnp, splitDash_no_dash _ hnf]
  simp only [matchesTraceparentPattern, hsplit]
  simp only [hlenv, hlent, hlenp, hlenf, List.all_append, Bool.and_eq_true, List.all_eq_true]
  refine ⟨⟨⟨⟨by decide, by decide⟩, by decide⟩, by decide⟩, ?_⟩
  exact ⟨⟨⟨hhexv, hhext⟩, hhexp⟩, hhexf⟩

/-! Remaining helper lemmas. -/

theorem eqIgnoreAsciiCase_congr {k₁ k₂ : String} (h : eqIgnoreAsciiCase k₁ k₂ = true)
    (a : String) : eqIgnoreAsciiCase a k₁ = eqIgnoreAsciiCase a k₂ := by
  have e : k₁.data.map asciiLower = k₂.data.map asciiLower := by
    simpa [eqIgnoreAsciiCase] using h
  simp [eqIgnoreAsciiCase, e]

theorem list_map_id_of_fix {α : Type} (l : List α) (f : α → α) (h : ∀ a ∈ l, f a = a) :
    l.map f = l := by
  induction l with
  | nil => rfl
  | cons a l ih => simp [h a (by simp), ih (fun x hx => h x (by simp [hx]))]

theorem extractContext_single (k : String) (bytes : List Nat) (s : String)
    (hk : eqIgnoreAsciiCase k "traceparent" = true) (hd : utf8Decode bytes = some s) :
    extractContext ⟨some [⟨k, some bytes⟩]⟩ = Except.ok (contextFromTraceparent s) := by
  simp only [extractContext, HeaderExtractor.get, headersGet, hk, if_true, hd, Except.map]

/-! The claims. -/

/-- Claim C1 (code bug): the correlation layer is documented (and the claim and
spec state) to tag the Sentry scope exactly for events at or above WARNING
severity — WARN and ERROR.  The guard in `on_event` is
`event.metadata().level() >= &self.min_level`, but tracing-core orders `Level`
by verbosity (`Level::ERROR < Level::WARN < Level::INFO`), so with the default
minimum WARN an ERROR event inside an active span with the valid context
(trace 1, span 2) leaves the scope untouched, while INFO (below the WARNING
severity) and WARN events do write the tags. -/
theorem sentryCorrelationLevelGuardBug :
    (onEvent correlationLayerDefaultMinLevel TracingLevel.error
        (some ⟨⟨1, 2, 1⟩⟩) ⟨[]⟩ = ⟨[]⟩) ∧
    (onEvent correlationLayerDefaultMinLevel TracingLevel.warn
        (some ⟨⟨1, 2, 1⟩⟩) ⟨[]⟩).getTag "otel.trace_id"
      = some "00000000000000000000000000000001" ∧
    (onEvent correlationLayerDefaultMinLevel TracingLevel.info
        (some ⟨⟨1, 2, 1⟩⟩) ⟨[]⟩).getTag "otel.trace_id"
      = some "00000000000000000000000000000001" ∧
    (onEvent correlationLayerDefaultMinLevel TracingLevel.info
        (some ⟨⟨1, 2, 1⟩⟩) ⟨[]⟩).getTag "otel.span_id"
      = some "0000000000000002" ∧
    TracingLevel.warn.severity ≤ TracingLevel.error.severity ∧
    TracingLevel.info.severity < TracingLevel.warn.severity := by
  decide

/-- Claim C6: at shutdown each of the three providers' shutdown is attempted
exactly once, whatever the three results are; each individual failure is
logged (surfaced) and a failure neither stops the remaining shutdowns nor
escapes (`shutdownSequence` is total). -/
theorem shutdownAllAttemptedFailuresSurfaced (rt rm rl : Except String Unit) :
    attemptsOf (shutdownSequence rt rm rl) "trace_provider" = 1 ∧
    attemptsOf (shutdownSequence rt rm rl) "meter_provider" = 1 ∧
    attemptsOf (shutdownSequence rt rm rl) "log_provider" = 1 ∧
    loggedFor (shutdownSequence rt rm rl) "trace_provider" = exceptFails rt ∧
    loggedFor (shutdownSequence rt rm rl) "meter_provider" = exceptFails rm ∧
    loggedFor (shutdownSequence rt rm rl) "log_provider" = exceptFails rl := by
  cases rt <;> cases rm <;> cases rl <;>
    simp [shutdownSequence, attemptsOf, loggedFor, exceptFails, List.filter]

theorem shutdownAllAttemptedFailuresSurfaced_witness :
    attemptsOf (shutdownSequence (Except.error "boom") (Except.ok ()) (Except.error "late"))
        "trace_provider" = 1 ∧
    attemptsOf (shutdownSequence (Except.error "boom") (Except.ok ()) (Except.error "late"))
        "meter_provider" = 1 ∧
    attemptsOf (shutdownSequence (Except.error "boom") (Except.ok ()) (Except.error "late"))
        "log_provider" = 1 ∧
    loggedFor (shutdownSequence (Except.error "boom") (Except.ok ()) (Except.error "late"))
        "trace_provider" = exceptFails (Except.error "boom") ∧
    loggedFor (shutdownSequence (Except.error "boom") (Except.ok ()) (Except.error "late"))
        "meter_provider" = exceptFails (Except.ok ()) ∧
    loggedFor (shutdownSequence (Except.error "boom") (Except.ok ()) (Except.error "late"))
        "log_provider" = exceptFails (Except.error "late") :=
  shutdownAllAttemptedFailuresSurfaced (Except.error "boom") (Except.ok ()) (Except.error "late")

/-- Claim C5 counterexample: `get` is not total — on a header collection whose
`traceparent` entry has an absent (null) value, the case-insensitive match runs
`header.value.unwrap()` and panics (`Except.error`), so it is not the case that
`get` always returns an `Option`. -/
theorem headerExtractorGetPanicsOnNullValue :
    ¬ (∀ (hs : List KafkaHeader) (key : String),
        ∃ r, HeaderExtractor.get ⟨some hs⟩ key = Except.ok r) := by
  intro hclaim
  obtain ⟨r, hr⟩ := hclaim [⟨"traceparent", none⟩] "traceparent"
  have he : HeaderExtractor.get ⟨some [⟨"traceparent", none⟩]⟩ "traceparent"
      = Except.error () := rfl
  rw [he] at hr
  exact Except.noConfusion hr

/-- Claim C5 amended: `get` and `keys` handle an absent header collection by
returning `none` and the empty list without error; and `get` cannot panic on a
header collection in which every entry matching the key case-insensitively has
a present value (entries with present but non-UTF-8 values are skipped, not
errors).  A matching entry with an absent value, however, panics (see the
counterexample). -/
theorem headerExtractorTotalWhenValuesPresent :
    (∀ key, HeaderExtractor.get ⟨none⟩ key = Except.ok none) ∧
    HeaderExtractor.keys ⟨none⟩ = [] ∧
    (∀ (hs : List KafkaHeader) (key : String),
      (∀ hd ∈ hs, eqIgnoreAsciiCase hd.key key = true → hd.value.isSome = true) →
      ∃ r, headersGet hs key = Except.ok r) := by
  refine ⟨fun key => rfl, rfl, ?_⟩
  intro hs key
  induction hs with
  | nil => intro _; exact ⟨none, rfl⟩
  | cons hd hs ih =>
    intro hpres
    simp only [headersGet]
    by_cases hk : eqIgnoreAsciiCase hd.key key = true
    · rw [if_pos hk]
      cases hval : hd.value with
      | none => exact absurd (hpres hd (by simp) hk) (by simp [hval])
      | some bytes =>
        show ∃ r, (match utf8Decode bytes with
          | some s => Except.ok (some s)
          | none => headersGet hs key) = Except.ok r
        cases hdec : utf8Decode bytes with
        | none =>
          show ∃ r, headersGet hs key = Except.ok r
          exact ih (fun x hx hkx => hpres x (by simp [hx]) hkx)
        | some s => exact ⟨some s, rfl⟩
    · rw [if_neg hk]
      exact ih (fun x hx hkx => hpres x (by simp [hx]) hkx)

theorem headerExtractorTotalWhenValuesPresent_witness :
    ∃ r, headersGet [⟨"Traceparent", some [255]⟩] "traceparent" = Except.ok r :=
  headerExtractorTotalWhenValuesPresent.2.2 [⟨"Traceparent", some [255]⟩] "traceparent"
    (by decide)

/-- Claim C9 counterexample: `get` does not return the value of the first
case-insensitive match: with headers `[("k", [255]), ("K", "v")]` the first
match's value is the non-UTF-8 byte `[255]`, which `find_map` skips, and `get`
returns the second match's value instead. -/
theorem headerExtractorGetSkipsFirstMatch :
    ¬ (∀ (hs : List KafkaHeader) (key v : String),
        headersGet hs key = Except.ok (some v) →
        (hs.find? (fun hd => eqIgnoreAsciiCase hd.key key)).bind KafkaHeader.value
          = some (utf8Encode v)) := by
  intro hclaim
  have h := hclaim [⟨"k", some [255]⟩, ⟨"K", some (utf8Encode "v")⟩] "k" "v" rfl
  exact absurd h (by decide)

/-- Claim C9 amended: `get` is case-insensitive in the key — keys equal up to
ASCII case give identical results — and it returns the value of the first
case-insensitive match whenever that first match's value is present and valid
UTF-8 (matches with an absent value panic, and matches with a non-UTF-8 value
are skipped in favour of later matches, see the counterexample). -/
theorem headerExtractorCaseInsensitive :
    (∀ (hs : List KafkaHeader) (k₁ k₂ : String), eqIgnoreAsciiCase k₁ k₂ = true →
      headersGet hs k₁ = headersGet hs k₂) ∧
    (∀ (hs : List KafkaHeader) (key : String) (hd : KafkaHeader) (bytes : List Nat) (s : String),
      hs.find? (fun x => eqIgnoreAsciiCase x.key key) = some hd →
      hd.value = some bytes → utf8Decode bytes = some s →
      headersGet hs key = Except.ok (some s)) := by
  constructor
  · intro hs k₁ k₂ hk
    induction hs with
    | nil => rfl
    | cons hd hs ih =>
      simp only [headersGet, eqIgnoreAsciiCase_congr hk hd.key, ih]
  · intro hs key hd bytes s hfind hval hdec
    induction hs with
    | nil => exact Option.noConfusion hfind
    | cons x hs ih =>
      by_cases hx : eqIgnoreAsciiCase x.key key = true
      · have hxd : hd = x := by
          simp only [List.find?, hx] at hfind
          exact (Option.some.injEq _ _ ▸ hfind :).symm
        subst hxd
        simp only [headersGet, if_pos hx, hval, hdec]
      · have hfind' : hs.find? (fun x => eqIgnoreAsciiCase x.key key) = some hd := by
          simpa only [List.find?, hx] using hfind
        simp only [headersGet, if_neg hx]
        exact ih hfind'

theorem headerExtractorCaseInsensitive_witness :
    headersGet [⟨"Traceparent", some (utf8Encode "00")⟩] "traceparent"
      = Except.ok (some "00") :=
  headerExtractorCaseInsensitive.2 [⟨"Traceparent", some (utf8Encode "00")⟩] "traceparent"
    ⟨"Traceparent", some (utf8Encode "00")⟩ (utf8Encode "00") "00" (by decide) rfl (by decide)

/-- Claim C2: whenever the context extracted from the consumed message's
headers is a valid producer context `P`, the consumer span is created as a new
independent root — its parent is `none` (`set_parent` is never called), so `P`
is not its parent — and it carries a link whose trace context equals `P`
exactly (trace id, span id and flags). -/
theorem consumerSpanLinkedNotParented
    (headers : Option (List KafkaHeader)) (payload : String)
    (deserialize : String → Option BookIngestionMessage) (P : SpanContext)
    (hx : extractContext ⟨headers⟩ = Except.ok P) (hv : P.isValid = true) :
    ∃ rest, processPayload deserialize headers payload
        = Except.ok (ConsumerEvent.spanCreated "book_ingestion" "Consumer" none
            :: ConsumerEvent.linkAdded P :: rest) := by
  refine ⟨(match deserialize payload with
    | some msg => [ConsumerEvent.infoLogged msg.bookId]
    | none => [ConsumerEvent.errorLoggedInSpan "Failed to deserialize message payload"]) ++
      [ConsumerEvent.spanClosedAtScopeExit, ConsumerEvent.offsetCommitted], ?_⟩
  simp [processPayload, hx, Except.map]

theorem consumerSpanLinkedNotParented_witness :
    ∃ rest, processPayload (fun _ => none)
        (some [⟨"traceparent",
          some (utf8Encode "00-00000000000000000000000000000001-0000000000000002-01")⟩]) "x"
        = Except.ok (ConsumerEvent.spanCreated "book_ingestion" "Consumer" none
            :: ConsumerEvent.linkAdded ⟨1, 2, 1⟩ :: rest) :=
  consumerSpanLinkedNotParented _ "x" _ ⟨1, 2, 1⟩ rfl (by decide)

/-- Claim C7 counterexample: on a message whose payload fails deserialization
after the span and its link were created, the consumer never explicitly ends
the span with an error status — the event trace of the iteration contains no
explicit end-with-error-status action at all (the span is closed implicitly at
scope exit, after the failure is reported). -/
theorem consumerSpanNeverExplicitlyEnded :
    ¬ (∀ (des : String → Option BookIngestionMessage) (headers : Option (List KafkaHeader))
        (payload : String) (evs : List ConsumerEvent),
        des payload = none → processPayload des headers payload = Except.ok evs →
        ConsumerEvent.spanEndedExplicitly SpanStatus.errorStatus ∈ evs) := by
  intro hclaim
  have hmem := hclaim (fun _ => none) (some []) "not json"
    [ConsumerEvent.spanCreated "book_ingestion" "Consumer" none,
     ConsumerEvent.linkAdded invalidSpanContext,
     ConsumerEvent.errorLoggedInSpan "Failed to deserialize message payload",
     ConsumerEvent.spanClosedAtScopeExit, ConsumerEvent.offsetCommitted] rfl rfl
  exact absurd hmem (by decide)

/-- Claim C7 amended: when deserialization fails after the consumer span and
its link were created, the failure is reported as an ERROR event inside the
span's scope and the span is then always closed when the scope exits (exactly
one close per created span, never abandoned, and the offset is still
committed); the code performs no explicit end and sets no error status itself,
and the close happens after — not before — the failure is reported. -/
theorem consumerSpanClosedAfterFailureReport
    (des : String → Option BookIngestionMessage) (headers : Option (List KafkaHeader))
    (payload : String) (P : SpanContext)
    (hdes : des payload = none) (hx : extractContext ⟨headers⟩ = Except.ok P) :
    processPayload des headers payload
      = Except.ok [ConsumerEvent.spanCreated "book_ingestion" "Consumer" none,
          ConsumerEvent.linkAdded P,
          ConsumerEvent.errorLoggedInSpan "Failed to deserialize message payload",
          ConsumerEvent.spanClosedAtScopeExit, ConsumerEvent.offsetCommitted] := by
  simp [processPayload, hx, hdes, Except.map]

theorem consumerSpanClosedAfterFailureReport_witness :
    processPayload (fun _ => none) (some []) "not json"
      = Except.ok [ConsumerEvent.spanCreated "book_ingestion" "Consumer" none,
          ConsumerEvent.linkAdded invalidSpanContext,
          ConsumerEvent.errorLoggedInSpan "Failed to deserialize message payload",
          ConsumerEvent.spanClosedAtScopeExit, ConsumerEvent.offsetCommitted] :=
  consumerSpanClosedAfterFailureReport (fun _ => none) (some []) "not json"
    invalidSpanContext rfl rfl

/-- Claim C8: injecting an invalid/empty trace context never raises and writes
no header: the Kafka `VecInjector` stays empty (so extraction downstream
reports the invalid context, i.e. no parent) and the outbound HTTP request is
returned unchanged without any panic. -/
theorem injectInvalidContextNoop (c : SpanContext) (req : HttpRequest)
    (h : c.isValid = false) :
    injectContextVec c VecInjector.new = VecInjector.new ∧
    extractContext ⟨some ((injectContextVec c VecInjector.new).intoOwnedHeaders)⟩
      = Except.ok invalidSpanContext ∧
    injectContextRequest c req = Except.ok req := by
  have h1 : injectContextVec c VecInjector.new = VecInjector.new := by
    simp [injectContextVec, h]
  refine ⟨h1, ?_, ?_⟩
  · rw [h1]
    rfl
  · simp [injectContextRequest, h]

theorem injectInvalidContextNoop_witness :
    injectContextVec ⟨0, 0, 0⟩ VecInjector.new = VecInjector.new ∧
    extractContext ⟨some ((injectContextVec ⟨0, 0, 0⟩ VecInjector.new).intoOwnedHeaders)⟩
      = Except.ok invalidSpanContext ∧
    injectContextRequest ⟨0, 0, 0⟩ ⟨[]⟩ = Except.ok ⟨[]⟩ :=
  injectInvalidContextNoop ⟨0, 0, 0⟩ ⟨[]⟩ (by decide)

/-- Claim C3: for every valid context (nonzero 128-bit trace id, nonzero
64-bit span id, 8-bit flags), injecting through the propagator into the
`VecInjector`, converting to transport headers, and extracting from those same
headers through the `HeaderExtractor` reproduces the trace id, span id and
flags exactly. -/
theorem injectExtractRoundtrip (t s f : Nat) (ht0 : t ≠ 0) (ht : t < 2 ^ 128)
    (hs0 : s ≠ 0) (hs : s < 2 ^ 64) (hf : f < 2 ^ 8) :
    extractContext ⟨some ((injectContextVec ⟨t, s, f⟩ VecInjector.new).intoOwnedHeaders)⟩
      = Except.ok ⟨t, s, f⟩ := by
  have hvalid : SpanContext.isValid ⟨t, s, f⟩ = true := by
    simp [SpanContext.isValid, ht0, hs0]
  have hheads : (injectContextVec ⟨t, s, f⟩ VecInjector.new).intoOwnedHeaders
      = [⟨"traceparent", some (utf8Encode (traceparentValue ⟨t, s, f⟩))⟩] := by
    simp [injectContextVec, hvalid, VecInjector.new, VecInjector.set,
      VecInjector.intoOwnedHeaders]
  have hdec : utf8Decode (utf8Encode (traceparentValue ⟨t, s, f⟩))
      = some (traceparentValue ⟨t, s, f⟩) :=
    utf8Decode_encode_ascii (traceparentChars_ascii ⟨t, s, f⟩)
  have hkey : eqIgnoreAsciiCase "traceparent" "traceparent" = true := by decide
  have hparse : parseTraceparent (traceparentValue ⟨t, s, f⟩).toList = some (t, s, f) := by
    have e16 : (16 : Nat) ^ 32 = 2 ^ 128 := by norm_num
    have e8 : (16 : Nat) ^ 16 = 2 ^ 64 := by norm_num
    have e2 : (16 : Nat) ^ 2 = 2 ^ 8 := by norm_num
    exact parseTraceparent_render t s f (by rw [e16]; exact ht) (by rw [e8]; exact hs)
      (by rw [e2]; exact hf)
  have hcond : ((t != 0) && (s != 0)) = true := by simp [ht0, hs0]
  rw [hheads, extractContext_single "traceparent" _ _ (by decide) hdec]
  have hctx : contextFromTraceparent (traceparentValue ⟨t, s, f⟩) = ⟨t, s, f⟩ := by
    simp only [contextFromTraceparent, hparse, hcond, if_true]
  rw [hctx]

theorem injectExtractRoundtrip_witness :
    extractContext ⟨some ((injectContextVec ⟨1, 2, 1⟩ VecInjector.new).intoOwnedHeaders)⟩
      = Except.ok ⟨1, 2, 1⟩ :=
  injectExtractRoundtrip 1 2 1 (by decide) (by norm_num) (by decide) (by norm_num) (by norm_num)

/-- Claim C4: for every received traceparent header whose decoded value does
not match the `{2hex}-{32hex}-{16hex}-{2hex}` pattern (the pattern stated
independently via `matchesTraceparentPattern`, covering the empty string,
wrong segment count, non-hex characters and wrong segment lengths), for every
non-UTF-8 header value, and when the traceparent header or the whole header
collection is absent, `extractContext` returns the canonical invalid context
without raising, so processing proceeds as a new root trace. -/
theorem extractMalformedGivesInvalid :
    (∀ (bytes : List Nat) (s : String), utf8Decode bytes = some s →
      matchesTraceparentPattern s = false →
      extractContext ⟨some [⟨"traceparent", some bytes⟩]⟩ = Except.ok invalidSpanContext) ∧
    (∀ bytes : List Nat, utf8Decode bytes = none →
      extractContext ⟨some [⟨"traceparent", some bytes⟩]⟩ = Except.ok invalidSpanContext) ∧
    extractContext ⟨some []⟩ = Except.ok invalidSpanContext ∧
    extractContext ⟨none⟩ = Except.ok invalidSpanContext := by
  have hkey : eqIgnoreAsciiCase "traceparent" "traceparent" = true := by decide
  refine ⟨?_, ?_, rfl, rfl⟩
  · intro bytes s hdec hmatch
    simp only [extractContext, HeaderExtractor.get, headersGet, hkey, if_true, hdec, Except.map]
    have hparse : parseTraceparent s.toList = none := by
      cases hp : parseTraceparent s.toList with
      | none => rfl
      | some x => exact absurd (matchesTraceparentPattern_of_parse hp) (by simp [hmatch])
    simp only [contextFromTraceparent, hparse]
  · intro bytes hdec
    simp [extractContext, HeaderExtractor.get, headersGet, hkey, hdec, Except.map]

theorem extractMalformedGivesInvalid_witness :
    extractContext ⟨some [⟨"traceparent", some []⟩]⟩ = Except.ok invalidSpanContext :=
  extractMalformedGivesInvalid.1 [] "" (by decide) (by decide)

/-- Claim C10: for an id with no matching row, both the db delete (which
discards the affected-row count) and the HTTP DELETE handler return success,
and the db update returns `rows_affected = 0` which the HTTP PATCH handler
maps to success — never a not-found error — and the stored set of books is
unchanged by either call. -/
theorem deleteUpdateNonexistentSucceedUnchanged
    (books : List Book) (id : Int) (bin : BookCreateIn)
    (h : ∀ b ∈ books, b.id ≠ id) :
    deleteBookDb books id = (books, Except.ok ()) ∧
    deleteBookHandler books id = (books, Except.ok ()) ∧
    updateBookDb books ⟨id, bin.title, bin.author, BookStatus.available⟩
      = (books, Except.ok 0) ∧
    updateBookHandler books id bin = (books, Except.ok 0) := by
  have hfil : books.filter (fun b => b.id != id) = books := by
    rw [List.filter_eq_self]
    intro b hb
    simpa using h b hb
  have hcnt : books.filter (fun b => b.id == id) = [] := by
    rw [List.filter_eq_nil_iff]
    intro b hb
    simpa using h b hb
  have h1 : deleteBookDb books id = (books, Except.ok ()) := by
    simp only [deleteBookDb, hfil]
  have h2 : deleteBookHandler books id = (books, Except.ok ()) := by
    simp [deleteBookHandler, h1]
  have h3 : updateBookDb books ⟨id, bin.title, bin.author, BookStatus.available⟩
      = (books, Except.ok 0) := by
    have hm := list_map_id_of_fix books
      (fun b => if b.id = id then
        { b with title := bin.title, author := bin.author, status := BookStatus.available }
      else b) (fun b hb => if_neg (h b hb))
    simp only [updateBookDb, hcnt, List.length_nil, Prod.mk.injEq]
    exact ⟨hm, trivial⟩
  have h4 : updateBookHandler books id bin = (books, Except.ok 0) := by
    simp [updateBookHandler, h3]
  exact ⟨h1, h2, h3, h4⟩

theorem deleteUpdateNonexistentSucceedUnchanged_witness :
    deleteBookDb [⟨1, "t", "a", BookStatus.available⟩] 2
      = ([⟨1, "t", "a", BookStatus.available⟩], Except.ok ()) ∧
    deleteBookHandler [⟨1, "t", "a", BookStatus.available⟩] 2
      = ([⟨1, "t", "a", BookStatus.available⟩], Except.ok ()) ∧
    updateBookDb [⟨1, "t", "a", BookStatus.available⟩] ⟨2, "t2", "a2", BookStatus.available⟩
      = ([⟨1, "t", "a", BookStatus.available⟩], Except.ok 0) ∧
    updateBookHandler [⟨1, "t", "a", BookStatus.available⟩] 2 ⟨"t2", "a2", none⟩
      = ([⟨1, "t", "a", BookStatus.available⟩], Except.ok 0) :=
  deleteUpdateNonexistentSucceedUnchanged [⟨1, "t", "a", BookStatus.available⟩] 2
    ⟨"t2", "a2", none⟩ (by decide)

end BookTelemetry
